import Mathlib

/-
Shallow embedding of src/Project1_Kalman/kalman_filter.py.

Python floats are modelled as real numbers.  The numpy matrices are
5-by-5 (or 5-by-1 / 1-by-5) matrices over the reals.  The csv reading
layer is modelled by records whose fields are Option-valued: a field is
none when it is missing from the line or when float() fails on it, and
some x when float() returns x.  The mutation of the filter object is
modelled by explicit state passing; a numpy LinAlgError escaping from
np.linalg.inv is modelled by the Except monad, the error value carrying
the fields of the filter object at the moment the exception is raised.
-/

set_option maxRecDepth 4000

namespace KalmanFilter

open Matrix

abbrev Mat5 := Matrix (Fin 5) (Fin 5) ℝ
abbrev Col5 := Matrix (Fin 5) (Fin 1) ℝ
abbrev Row5 := Matrix (Fin 1) (Fin 5) ℝ

/-- One parsed data line: the ten numeric fields of the csv file
(%time, field.O_x, field.O_y, field.O_t, field.I_t, field.Co_I_t,
field.G_x, field.G_y, field.Co_gps_x, field.Co_gps_y). -/
structure Record where
  time : ℝ
  O_x : ℝ
  O_y : ℝ
  O_t : ℝ
  I_t : ℝ
  Co_I_t : ℝ
  G_x : ℝ
  G_y : ℝ
  Co_gps_x : ℝ
  Co_gps_y : ℝ

/-- One raw csv line before conversion: a field is none when it is
missing or non-numeric, so that float(line[key]) raises. -/
structure RawRecord where
  time : Option ℝ
  O_x : Option ℝ
  O_y : Option ℝ
  O_t : Option ℝ
  I_t : Option ℝ
  Co_I_t : Option ℝ
  G_x : Option ℝ
  G_y : Option ℝ
  Co_gps_x : Option ℝ
  Co_gps_y : Option ℝ

/-- All ten float() conversions of one line in get_data: succeeds only
when every field is present and numeric. -/
def parseRecord (r : RawRecord) : Option Record :=
  match r.time, r.O_x, r.O_y, r.O_t, r.I_t, r.Co_I_t, r.G_x, r.G_y,
      r.Co_gps_x, r.Co_gps_y with
  | some t, some ox, some oy, some ot, some it, some cit, some gx, some gy,
      some cgx, some cgy => some ⟨t, ox, oy, ot, it, cit, gx, gy, cgx, cgy⟩
  | _, _, _, _, _, _, _, _, _, _ => none

/-- Kalman_filter.get_data: reads the lines in file order; the first
line with a missing or non-numeric field raises, so the whole load
yields nothing.  No check relates the %time values of successive lines. -/
def get_data : List RawRecord → Option (List Record)
  | [] => some []
  | r :: rs => (parseRecord r).bind fun rec =>
      (get_data rs).map fun recs => rec :: recs

/-- The constructor arguments of Kalman_filter that the claims need
(gps_noise draws random numbers and is outside this development). -/
structure Config where
  process_noise_val : ℝ
  measurement_cov_val : ℝ
  previous_cov_val : ℝ
  gps_cov_override : Option (ℝ × ℝ)
  imu_cov_override : Option ℝ

/-- The constructor defaults: process_noise_val=.0001,
measurement_cov_val=.01, previous_cov_val=.01, no overrides. -/
noncomputable def default_config : Config := ⟨0.0001, 0.01, 0.01, none, none⟩

/-- self.wheel_distance = 1 -/
noncomputable def wheel_distance : ℝ := 1

/-- self.delta_t = .001 -/
noncomputable def delta_t : ℝ := 0.001

/-- self.velocity = .14 -/
noncomputable def velocity : ℝ := 0.14

/-- self.input_effect = np.identity(5) -/
noncomputable def input_effect : Mat5 := 1

/-- self.control_input = the 5-by-1 zero matrix -/
noncomputable def control_input : Col5 := 0

/-- self.process_noise = np.identity(5) * process_noise_val -/
noncomputable def process_noise (cfg : Config) : Mat5 :=
  cfg.process_noise_val • 1

/-- self.measurement_effect = np.identity(5) -/
noncomputable def measurement_effect : Mat5 := 1

/-- self.measurement_cov = np.identity(5) * measurement_cov_val -/
noncomputable def measurement_cov (cfg : Config) : Mat5 :=
  cfg.measurement_cov_val • 1

/-- np.finfo(np.float32).eps, the float32 machine epsilon 2 ^ (-23),
used by fuse as the floor on variances. -/
noncomputable def eps32 : ℝ := (2 : ℝ) ^ (-23 : ℤ)

/-- np.radians: degrees to radians. -/
noncomputable def radians (d : ℝ) : ℝ := d * (Real.pi / 180)

/-- Kalman_filter.fuse: returns (mean, deviation) with every variance
floored at eps32; the second component is computed by ** -.5. -/
noncomputable def fuse (first_mean second_mean first_deviation
    second_deviation : ℝ) : ℝ × ℝ :=
  ((first_mean / max (first_deviation ^ 2) eps32 +
      second_mean / max (second_deviation ^ 2) eps32) /
    (1 / max (first_deviation ^ 2) eps32 +
      1 / max (second_deviation ^ 2) eps32),
   (1 / max (first_deviation ^ 2) eps32 +
      1 / max (second_deviation ^ 2) eps32) ^ (-(1 / 2) : ℝ))

/-- Kalman_filter.override_cov on the gps covariance columns: every
line gets Co_gps_x := v.1 and Co_gps_y := v.2. -/
def override_gps_cov (v : ℝ × ℝ) (r : Record) : Record :=
  ⟨r.time, r.O_x, r.O_y, r.O_t, r.I_t, r.Co_I_t, r.G_x, r.G_y, v.1, v.2⟩

/-- Kalman_filter.override_cov on the imu covariance column. -/
def override_imu_cov (v : ℝ) (r : Record) : Record :=
  ⟨r.time, r.O_x, r.O_y, r.O_t, r.I_t, v, r.G_x, r.G_y, r.Co_gps_x,
    r.Co_gps_y⟩

/-- The two optional override_cov calls in the constructor, applied to
the loaded data in constructor order. -/
def apply_overrides (cfg : Config) (data : List Record) : List Record :=
  let d1 := match cfg.gps_cov_override with
    | some v => data.map (override_gps_cov v)
    | none => data
  match cfg.imu_cov_override with
  | some v => d1.map (override_imu_cov v)
  | none => d1

/-- Kalman_filter.fuse_readings at one line: the 5-by-1 fused mean
(after the final transpose) and the diagonal matrix obtained from
np.identity(5) after all five diagonal entries are overwritten.  Note
that the theta fusion passes measurement_cov[2, 2], as in the source. -/
noncomputable def fuse_readings (cfg : Config) (r : Record) :
    Col5 × Mat5 :=
  (Matrix.of
     ![![(fuse r.O_x r.G_x (measurement_cov cfg 0 0) r.Co_gps_x).1],
       ![(fuse r.O_y r.G_y (measurement_cov cfg 1 1) r.Co_gps_y).1],
       ![velocity],
       ![(fuse r.O_t r.I_t (measurement_cov cfg 2 2) r.Co_I_t).1],
       ![velocity * Real.tan (radians r.O_t) / wheel_distance]],
   Matrix.of
     ![![(fuse r.O_x r.G_x (measurement_cov cfg 0 0) r.Co_gps_x).2,
         0, 0, 0, 0],
       ![0, (fuse r.O_y r.G_y (measurement_cov cfg 1 1) r.Co_gps_y).2,
         0, 0, 0],
       ![0, 0, measurement_cov cfg 2 2, 0, 0],
       ![0, 0, 0,
         (fuse r.O_t r.I_t (measurement_cov cfg 2 2) r.Co_I_t).2, 0],
       ![0, 0, 0, 0, measurement_cov cfg 4 4]])

/-- The mutable fields of the filter object during a run: the current
covariance self.previous_cov and the list self.state of 1-by-5 rows. -/
structure KState where
  previous_cov : Mat5
  state : List Row5

/-- The fields right after the constructor: previous_cov =
np.identity(5) * previous_cov_val and state = the singleton list
holding the all-zero 1-by-5 row. -/
noncomputable def init_state (cfg : Config) : KState :=
  ⟨cfg.previous_cov_val • 1, [0]⟩

/-- The transition matrix built in model_predict from the odometry
heading of the current line; both the x row and the y row carry
delta_t * cos(radians(theta)) in column 2. -/
noncomputable def transition_matrix (r : Record) : Mat5 :=
  Matrix.of
    ![![1, 0, delta_t * Real.cos (radians r.O_t), 0, 0],
      ![0, 1, delta_t * Real.cos (radians r.O_t), 0, 0],
      ![0, 0, 1, 0, 0],
      ![0, 0, 0, 1, delta_t],
      ![0, 0, 0, 0, 1]]

/-- Kalman_filter.model_predict: first component the returned state
prediction, second component the value written into self.previous_cov. -/
noncomputable def model_predict (cfg : Config) (r : Record) (s : KState) :
    Col5 × Mat5 :=
  (transition_matrix r * (s.state.getLastD 0)ᵀ +
     input_effect * control_input,
   transition_matrix r * (s.previous_cov * (transition_matrix r)ᵀ) +
     process_noise cfg)

/-- cov_Y of state_update: self.measurement_cov plus H times the
post-predict covariance times H transpose.  It does NOT use the matrix
returned by fuse_readings. -/
noncomputable def cov_Y (cfg : Config) (r : Record) (s : KState) : Mat5 :=
  measurement_cov cfg +
    measurement_effect * ((model_predict cfg r s).2 * measurement_effectᵀ)

open Classical in
/-- Kalman_filter.state_update.  model_predict has already written the
predicted covariance into self.previous_cov when np.linalg.inv is
called on cov_Y; a singular cov_Y therefore aborts with the history
untouched but the covariance already overwritten, which the error value
records.  On success the new row is appended and the covariance gets
its posterior value. -/
noncomputable def state_update (cfg : Config) (r : Record) (s : KState) :
    Except KState KState :=
  if (cov_Y cfg r s).det = 0 then
    Except.error ⟨(model_predict cfg r s).2, s.state⟩
  else
    Except.ok
      ⟨(model_predict cfg r s).2 -
         (model_predict cfg r s).2 *
             (measurement_effectᵀ * (cov_Y cfg r s)⁻¹) *
           (cov_Y cfg r s *
             ((model_predict cfg r s).2 *
               (measurement_effectᵀ * (cov_Y cfg r s)⁻¹))ᵀ),
       s.state ++
         [((model_predict cfg r s).1 +
             (model_predict cfg r s).2 *
                 (measurement_effectᵀ * (cov_Y cfg r s)⁻¹) *
               ((fuse_readings cfg r).1 -
                 measurement_effect * (model_predict cfg r s).1))ᵀ]⟩

/-- Kalman_filter.run: one state_update per line, in file order; an
exception stops the loop. -/
noncomputable def run (cfg : Config) : List Record → KState →
    Except KState KState
  | [], s => Except.ok s
  | r :: rest, s =>
    match state_update cfg r s with
    | Except.error e => Except.error e
    | Except.ok s1 => run cfg rest s1

/-- The constructor followed by run: load the file, apply the overrides,
start from the initial state.  A failed load produces no filter at all,
so no filtering step runs. -/
noncomputable def load_and_run (cfg : Config) (rows : List RawRecord) :
    Option (Except KState KState) :=
  (get_data rows).map fun data =>
    run cfg (apply_overrides cfg data) (init_state cfg)

/- ------------------------------------------------------------------ -/
/- Helper lemmas                                                      -/
/- ------------------------------------------------------------------ -/

lemma eps32_pos : 0 < eps32 := by
  rw [eps32]; positivity

lemma eps32_eq : eps32 = 1 / 8388608 := by
  rw [eps32]; norm_num

lemma max_sq_pos (x : ℝ) : 0 < max (x ^ 2) eps32 :=
  lt_of_lt_of_le eps32_pos (le_max_right _ _)

lemma rpow_neg_half_eq (x : ℝ) (hx : 0 < x) :
    x ^ (-(1 / 2) : ℝ) = (Real.sqrt x)⁻¹ := by
  rw [Real.rpow_neg hx.le, ← Real.sqrt_eq_rpow]

lemma fuse_sum_inv_pos (a b : ℝ) :
    0 < 1 / max (a ^ 2) eps32 + 1 / max (b ^ 2) eps32 :=
  add_pos (one_div_pos.mpr (max_sq_pos a)) (one_div_pos.mpr (max_sq_pos b))

lemma fuse_dev_eq (m1 m2 a b : ℝ) :
    (fuse m1 m2 a b).2 =
      (Real.sqrt (1 / max (a ^ 2) eps32 + 1 / max (b ^ 2) eps32))⁻¹ := by
  show (1 / max (a ^ 2) eps32 + 1 / max (b ^ 2) eps32) ^ (-(1 / 2) : ℝ) = _
  rw [rpow_neg_half_eq _ (fuse_sum_inv_pos a b)]

/- ------------------------------------------------------------------ -/
/- C2                                                                 -/
/- ------------------------------------------------------------------ -/

/-- C2: model_predict returns the state prediction F times the previous
state plus the control effect, the control effect is the zero vector,
the covariance is replaced by F times the previous covariance times F
transpose plus the fixed diagonal process noise, and both the x row and
the y row of F carry delta_t times cos(radians(theta)) of the current
odometry heading in the velocity column. -/
theorem C2_model_predict (cfg : Config) (r : Record) (s : KState) :
    (model_predict cfg r s).1 = transition_matrix r * (s.state.getLastD 0)ᵀ ∧
    input_effect * control_input = 0 ∧
    (model_predict cfg r s).2 =
      transition_matrix r * s.previous_cov * (transition_matrix r)ᵀ +
        cfg.process_noise_val • 1 ∧
    transition_matrix r 0 2 = delta_t * Real.cos (radians r.O_t) ∧
    transition_matrix r 1 2 = delta_t * Real.cos (radians r.O_t) := by
  refine ⟨?_, ?_, ?_, ?_, ?_⟩
  · show transition_matrix r * (s.state.getLastD 0)ᵀ +
        input_effect * control_input = _
    simp [input_effect, control_input]
  · simp [input_effect, control_input]
  · show transition_matrix r * (s.previous_cov * (transition_matrix r)ᵀ) +
        process_noise cfg = _
    rw [process_noise, Matrix.mul_assoc]
  · simp [transition_matrix]
  · simp [transition_matrix]

/- ------------------------------------------------------------------ -/
/- C3                                                                 -/
/- ------------------------------------------------------------------ -/

/-- C3: fuse is total for every pair of means and every pair of
standard deviations: both floored variances are strictly positive, so
no division by zero occurs, the returned mean is the precision-weighted
mean of the spec, and the returned deviation equals the square root of
the inverse of the summed precisions. -/
theorem C3_fuse_total (m1 m2 a b : ℝ) :
    0 < max (a ^ 2) eps32 ∧ 0 < max (b ^ 2) eps32 ∧
    (fuse m1 m2 a b).1 =
      (m1 / max (a ^ 2) eps32 + m2 / max (b ^ 2) eps32) /
        (1 / max (a ^ 2) eps32 + 1 / max (b ^ 2) eps32) ∧
    (fuse m1 m2 a b).2 =
      Real.sqrt ((1 / max (a ^ 2) eps32 + 1 / max (b ^ 2) eps32)⁻¹) :=
  ⟨max_sq_pos a, max_sq_pos b, rfl, by
    rw [Real.sqrt_inv]; exact fuse_dev_eq m1 m2 a b⟩

/- ------------------------------------------------------------------ -/
/- C4                                                                 -/
/- ------------------------------------------------------------------ -/

lemma weighted_mean_bounds (m1 m2 v1 v2 : ℝ) (h1 : 0 < v1) (h2 : 0 < v2) :
    min m1 m2 ≤ (m1 / v1 + m2 / v2) / (1 / v1 + 1 / v2) ∧
    (m1 / v1 + m2 / v2) / (1 / v1 + 1 / v2) ≤ max m1 m2 := by
  have hD : 0 < 1 / v1 + 1 / v2 :=
    add_pos (one_div_pos.mpr h1) (one_div_pos.mpr h2)
  constructor
  · rw [le_div_iff₀ hD]
    have ha : min m1 m2 * (1 / v1) ≤ m1 * (1 / v1) :=
      mul_le_mul_of_nonneg_right (min_le_left _ _) (one_div_pos.mpr h1).le
    have hb : min m1 m2 * (1 / v2) ≤ m2 * (1 / v2) :=
      mul_le_mul_of_nonneg_right (min_le_right _ _) (one_div_pos.mpr h2).le
    calc min m1 m2 * (1 / v1 + 1 / v2)
        = min m1 m2 * (1 / v1) + min m1 m2 * (1 / v2) := by ring
      _ ≤ m1 * (1 / v1) + m2 * (1 / v2) := add_le_add ha hb
      _ = m1 / v1 + m2 / v2 := by ring
  · rw [div_le_iff₀ hD]
    have ha : m1 * (1 / v1) ≤ max m1 m2 * (1 / v1) :=
      mul_le_mul_of_nonneg_right (le_max_left _ _) (one_div_pos.mpr h1).le
    have hb : m2 * (1 / v2) ≤ max m1 m2 * (1 / v2) :=
      mul_le_mul_of_nonneg_right (le_max_right _ _) (one_div_pos.mpr h2).le
    calc m1 / v1 + m2 / v2
        = m1 * (1 / v1) + m2 * (1 / v2) := by ring
      _ ≤ max m1 m2 * (1 / v1) + max m1 m2 * (1 / v2) := add_le_add ha hb
      _ = max m1 m2 * (1 / v1 + 1 / v2) := by ring

lemma sqrt_one_div_sq (a : ℝ) (ha : 0 < a) :
    Real.sqrt (1 / a ^ 2) = 1 / a := by
  rw [show (1 : ℝ) / a ^ 2 = (1 / a) ^ 2 by rw [div_pow, one_pow]]
  exact Real.sqrt_sq (by positivity)

/-- C4 amended: for strictly positive standard deviations the fused
mean always lies between the two input means; the fused deviation is at
most min of the two inputs provided both squared deviations are at
least the eps32 floor (the bound fails below the floor, see the
counterexample). -/
theorem C4_fuse_bounds (m1 m2 a b : ℝ) (ha : 0 < a) (hb : 0 < b) :
    (min m1 m2 ≤ (fuse m1 m2 a b).1 ∧ (fuse m1 m2 a b).1 ≤ max m1 m2) ∧
    (eps32 ≤ a ^ 2 → eps32 ≤ b ^ 2 → (fuse m1 m2 a b).2 ≤ min a b) := by
  constructor
  · exact weighted_mean_bounds m1 m2 (max (a ^ 2) eps32) (max (b ^ 2) eps32)
      (max_sq_pos a) (max_sq_pos b)
  · intro ha2 hb2
    rw [fuse_dev_eq, max_eq_left ha2, max_eq_left hb2]
    have key : ∀ x y : ℝ, 0 < x → 0 < y →
        (Real.sqrt (1 / x ^ 2 + 1 / y ^ 2))⁻¹ ≤ x := by
      intro x y hx hy
      have h1 : 1 / x ≤ Real.sqrt (1 / x ^ 2 + 1 / y ^ 2) := by
        rw [← sqrt_one_div_sq x hx]
        exact Real.sqrt_le_sqrt (le_add_of_nonneg_right (by positivity))
      have h2 := inv_anti₀ (by positivity : (0:ℝ) < 1 / x) h1
      rwa [show ((1:ℝ) / x)⁻¹ = x by field_simp] at h2
    refine le_min (key a b ha hb) ?_
    have := key b a hb ha
    rwa [add_comm] at this

/-- C4 counterexample: at means 0, 0 and standard deviations
sigma1 = sigma2 = 2 ^ (-15), both strictly positive, fuse returns a
deviation of 4096⁻¹ = 2 ^ (-12), strictly larger than
min(sigma1, sigma2) = 2 ^ (-15), because both variances sit below the
eps32 floor. -/
theorem C4_counterexample :
    0 < ((2 : ℝ) ^ (-15 : ℤ)) ∧
    ¬ ((fuse 0 0 ((2 : ℝ) ^ (-15 : ℤ)) ((2 : ℝ) ^ (-15 : ℤ))).2 ≤
        min ((2 : ℝ) ^ (-15 : ℤ)) ((2 : ℝ) ^ (-15 : ℤ))) := by
  have h15 : ((2 : ℝ) ^ (-15 : ℤ)) = 1 / 32768 := by norm_num
  constructor
  · rw [h15]; norm_num
  · have hσ : ((2 : ℝ) ^ (-15 : ℤ)) ^ 2 ≤ eps32 := by
      rw [h15, eps32_eq]; norm_num
    rw [fuse_dev_eq, max_eq_right hσ]
    have hA : 1 / eps32 + 1 / eps32 = (16777216 : ℝ) := by
      rw [eps32_eq]; norm_num
    rw [hA]
    have hs : Real.sqrt 16777216 = 4096 := by
      rw [show (16777216 : ℝ) = 4096 ^ 2 by norm_num]
      exact Real.sqrt_sq (by norm_num)
    rw [hs, min_self, h15]
    norm_num

/-- C4 witness: the amended bounds instantiated at means 0, 1 and
standard deviations 1, 1, whose squares are above the eps32 floor. -/
theorem C4_witness :
    (0 : ℝ) < 1 ∧ eps32 ≤ (1 : ℝ) ^ 2 ∧
    (min (0 : ℝ) 1 ≤ (fuse 0 1 1 1).1 ∧ (fuse 0 1 1 1).1 ≤ max (0 : ℝ) 1) ∧
    (fuse 0 1 1 1).2 ≤ min (1 : ℝ) 1 := by
  have h1 : eps32 ≤ (1 : ℝ) ^ 2 := by rw [eps32_eq]; norm_num
  exact ⟨one_pos, h1, (C4_fuse_bounds 0 1 1 1 one_pos one_pos).1,
    (C4_fuse_bounds 0 1 1 1 one_pos one_pos).2 h1 h1⟩

/- ------------------------------------------------------------------ -/
/- Concrete inputs and evaluation lemmas                              -/
/- ------------------------------------------------------------------ -/

/-- A data line with every field zero. -/
def r0 : Record := ⟨0, 0, 0, 0, 0, 0, 0, 0, 0, 0⟩

/-- A data line whose gps x covariance field is 0.01. -/
noncomputable def rB : Record := ⟨0, 0, 0, 0, 0, 0, 0, 0, 0.01, 0⟩

/-- A configuration with zero process noise and zero initial
covariance, default measurement covariance. -/
noncomputable def cfg0 : Config := ⟨0, 0.01, 0, none, none⟩

/-- A configuration with zero process noise, zero measurement
covariance and zero initial covariance: it makes cov_Y singular. -/
noncomputable def cfgZ : Config := ⟨0, 0, 0, none, none⟩

/-- The constructor defaults plus the gps covariance override of the
second reference scenario. -/
noncomputable def cfgO : Config := ⟨0.0001, 0.01, 0.01, some (0.01, 0.01), none⟩

lemma measurement_cov_diag (cfg : Config) (i : Fin 5) :
    measurement_cov cfg i i = cfg.measurement_cov_val := by
  rw [measurement_cov]
  simp [Matrix.smul_apply, Matrix.one_apply_eq]

lemma fuse_readings_R00 (cfg : Config) (r : Record) :
    (fuse_readings cfg r).2 0 0 =
      (fuse r.O_x r.G_x (measurement_cov cfg 0 0) r.Co_gps_x).2 := by
  simp [fuse_readings]

lemma fuse_readings_R11 (cfg : Config) (r : Record) :
    (fuse_readings cfg r).2 1 1 =
      (fuse r.O_y r.G_y (measurement_cov cfg 1 1) r.Co_gps_y).2 := by
  simp [fuse_readings]

lemma fuse_dev_01_01 (m1 m2 : ℝ) :
    (fuse m1 m2 0.01 0.01).2 = (Real.sqrt 20000)⁻¹ := by
  rw [fuse_dev_eq,
    max_eq_left (show eps32 ≤ ((0.01 : ℝ)) ^ 2 by rw [eps32_eq]; norm_num),
    show (1 : ℝ) / (0.01 : ℝ) ^ 2 + 1 / (0.01 : ℝ) ^ 2 = 20000 by norm_num]

lemma fuse_dev_01_0 (m1 m2 : ℝ) :
    (fuse m1 m2 0.01 0).2 = (Real.sqrt 8398608)⁻¹ := by
  rw [fuse_dev_eq,
    max_eq_left (show eps32 ≤ ((0.01 : ℝ)) ^ 2 by rw [eps32_eq]; norm_num),
    max_eq_right (show ((0 : ℝ)) ^ 2 ≤ eps32 by rw [eps32_eq]; norm_num),
    eps32_eq,
    show (1 : ℝ) / (0.01 : ℝ) ^ 2 + 1 / (1 / 8388608) = 8398608 by norm_num]

lemma sqrt20000_inv_ne : (Real.sqrt 20000)⁻¹ ≠ (0.01 : ℝ) := by
  intro h
  have h2 : Real.sqrt 20000 = (0.01 : ℝ)⁻¹ := inv_eq_iff_eq_inv.mp h
  have h3 := Real.sq_sqrt (show (0 : ℝ) ≤ 20000 by norm_num)
  rw [h2] at h3
  norm_num at h3

lemma sqrt_inv_20000_ne_8398608 :
    (Real.sqrt 20000)⁻¹ ≠ (Real.sqrt 8398608)⁻¹ := by
  intro h
  have h1 := inv_inj.mp h
  rw [Real.sqrt_inj (by norm_num) (by norm_num)] at h1
  norm_num at h1

lemma model_predict_degenerate (cfg : Config) (r : Record)
    (h1 : cfg.previous_cov_val = 0) (h2 : cfg.process_noise_val = 0) :
    model_predict cfg r (init_state cfg) = (0, 0) := by
  simp [model_predict, init_state, h1, h2, process_noise, input_effect,
    control_input]

lemma cov_Y_cfg0 : cov_Y cfg0 r0 (init_state cfg0) = (0.01 : ℝ) • 1 := by
  unfold cov_Y
  rw [model_predict_degenerate cfg0 r0 rfl rfl]
  simp [measurement_cov, measurement_effect, cfg0]

lemma det_cfg0 : (cov_Y cfg0 r0 (init_state cfg0)).det ≠ 0 := by
  rw [cov_Y_cfg0, Matrix.det_smul, Matrix.det_one]
  norm_num [Fintype.card_fin]

lemma step0 : state_update cfg0 r0 (init_state cfg0) =
    Except.ok ⟨0, [0, 0]⟩ := by
  unfold state_update
  rw [if_neg det_cfg0, model_predict_degenerate cfg0 r0 rfl rfl]
  simp [init_state]

lemma run0 : run cfg0 [r0] (init_state cfg0) = Except.ok ⟨0, [0, 0]⟩ := by
  show (match state_update cfg0 r0 (init_state cfg0) with
        | Except.error e => Except.error e
        | Except.ok s1 => run cfg0 [] s1) = _
  rw [step0]
  rfl

lemma cov_Y_cfgZ : cov_Y cfgZ r0 (init_state cfgZ) = 0 := by
  unfold cov_Y
  rw [model_predict_degenerate cfgZ r0 rfl rfl]
  simp [measurement_cov, measurement_effect, cfgZ]

lemma det_cfgZ : (cov_Y cfgZ r0 (init_state cfgZ)).det = 0 := by
  rw [cov_Y_cfgZ]
  exact Matrix.det_zero ⟨0⟩

lemma stepZ : state_update cfgZ r0 (init_state cfgZ) =
    Except.error ⟨0, [0]⟩ := by
  unfold state_update
  rw [if_pos det_cfgZ, model_predict_degenerate cfgZ r0 rfl rfl]
  simp [init_state]

/- ------------------------------------------------------------------ -/
/- C1                                                                 -/
/- ------------------------------------------------------------------ -/

/-- The innovation covariance of the spec with H the identity and R the
static configured measurement covariance: S = R_static + covpred. -/
noncomputable def innovation_cov (cfg : Config) (r : Record) (s : KState) :
    Mat5 :=
  measurement_cov cfg + (model_predict cfg r s).2

/-- The Kalman gain of the spec with H the identity:
K = covpred * S⁻¹. -/
noncomputable def kalman_gain (cfg : Config) (r : Record) (s : KState) :
    Mat5 :=
  (model_predict cfg r s).2 * (innovation_cov cfg r s)⁻¹

lemma covY_eq_innovation (cfg : Config) (r : Record) (s : KState) :
    cov_Y cfg r s = innovation_cov cfg r s := by
  unfold cov_Y innovation_cov measurement_effect
  rw [Matrix.transpose_one, Matrix.mul_one, Matrix.one_mul]

/-- C1 counterexample: at the default configuration, the all-zero
initial state and a line whose gps x covariance field is 0.01, the
innovation covariance actually computed by state_update (the static
measurement_cov plus H covpred Ht) differs from what the claim states
(the fused R of fuse_readings plus H covpred Ht): their (0,0) entries
are 0.01 versus (sqrt 20000)⁻¹. -/
theorem C1_counterexample :
    cov_Y default_config rB (init_state default_config) ≠
      (fuse_readings default_config rB).2 +
        measurement_effect *
          ((model_predict default_config rB (init_state default_config)).2 *
            measurement_effectᵀ) := by
  intro h
  have h00 := congrFun (congrFun h 0) 0
  unfold cov_Y at h00
  rw [Matrix.add_apply, Matrix.add_apply] at h00
  have h1 := add_right_cancel h00
  rw [measurement_cov_diag, fuse_readings_R00, measurement_cov_diag,
    show default_config.measurement_cov_val = (0.01 : ℝ) from rfl,
    show rB.Co_gps_x = (0.01 : ℝ) from rfl, fuse_dev_01_01] at h1
  exact sqrt20000_inv_ne h1.symm

/-- C1 amended: on a successful update the innovation covariance used
by state_update is the STATIC configured measurement covariance plus
H covpred Ht with H the identity — the per-line covariance returned by
fuse_readings is ignored — and the gain is covpred times Ht times the
inverse of that innovation covariance; the appended row and the
posterior covariance are formed from that gain. -/
theorem C1_innovation_and_gain (cfg : Config) (r : Record) (s : KState)
    (s1 : KState) (h : state_update cfg r s = Except.ok s1) :
    cov_Y cfg r s = innovation_cov cfg r s ∧
    s1.previous_cov =
      (model_predict cfg r s).2 -
        kalman_gain cfg r s *
          (innovation_cov cfg r s * (kalman_gain cfg r s)ᵀ) ∧
    s1.state = s.state ++
      [((model_predict cfg r s).1 +
          kalman_gain cfg r s *
            ((fuse_readings cfg r).1 - (model_predict cfg r s).1))ᵀ] := by
  have hK : (model_predict cfg r s).2 *
      (measurement_effectᵀ * (cov_Y cfg r s)⁻¹) = kalman_gain cfg r s := by
    rw [kalman_gain, measurement_effect, Matrix.transpose_one,
      Matrix.one_mul, covY_eq_innovation]
  have hY : measurement_effect * (model_predict cfg r s).1 =
      (model_predict cfg r s).1 := by
    rw [measurement_effect, Matrix.one_mul]
  by_cases hd : (cov_Y cfg r s).det = 0
  · exfalso
    unfold state_update at h
    rw [if_pos hd] at h
    exact Except.noConfusion h
  · unfold state_update at h
    rw [if_neg hd] at h
    injection h with h1
    subst h1
    refine ⟨covY_eq_innovation cfg r s, ?_, ?_⟩
    · show (model_predict cfg r s).2 - _ = _
      rw [hK, covY_eq_innovation]
    · show s.state ++ _ = _
      rw [hK, hY]

/-- C1 witness: the amended statement instantiated at the degenerate
configuration whose update provably succeeds. -/
theorem C1_witness :
    state_update cfg0 r0 (init_state cfg0) = Except.ok ⟨0, [0, 0]⟩ ∧
    (cov_Y cfg0 r0 (init_state cfg0) =
        innovation_cov cfg0 r0 (init_state cfg0) ∧
      (⟨0, [0, 0]⟩ : KState).previous_cov =
        (model_predict cfg0 r0 (init_state cfg0)).2 -
          kalman_gain cfg0 r0 (init_state cfg0) *
            (innovation_cov cfg0 r0 (init_state cfg0) *
              (kalman_gain cfg0 r0 (init_state cfg0))ᵀ) ∧
      (⟨0, [0, 0]⟩ : KState).state =
        (init_state cfg0).state ++
          [((model_predict cfg0 r0 (init_state cfg0)).1 +
              kalman_gain cfg0 r0 (init_state cfg0) *
                ((fuse_readings cfg0 r0).1 -
                  (model_predict cfg0 r0 (init_state cfg0)).1))ᵀ]) :=
  ⟨step0, C1_innovation_and_gain cfg0 r0 (init_state cfg0) ⟨0, [0, 0]⟩ step0⟩

/- ------------------------------------------------------------------ -/
/- C5                                                                 -/
/- ------------------------------------------------------------------ -/

/-- C5 counterexample: constructing with the gps covariance override
(0.01, 0.01) rewrites the gps covariance fields of every line to 0.01,
but the composed covariance entry R[0,0] of fuse_readings is then
(sqrt 20000)⁻¹, not exactly 0.01: fuse combines the overridden gps
deviation 0.01 with the configured measurement deviation 0.01. -/
theorem C5_counterexample :
    apply_overrides cfgO [r0] = [override_gps_cov (0.01, 0.01) r0] ∧
    (fuse_readings cfgO (override_gps_cov (0.01, 0.01) r0)).2 0 0 ≠
      0.01 := by
  refine ⟨rfl, ?_⟩
  rw [fuse_readings_R00, measurement_cov_diag,
    show cfgO.measurement_cov_val = (0.01 : ℝ) from rfl,
    show (override_gps_cov (0.01, 0.01) r0).Co_gps_x = (0.01 : ℝ) from rfl,
    fuse_dev_01_01]
  exact sqrt20000_inv_ne

/-- C5 amended: with the gps covariance override (0.01, 0.01) the
composed entries R[0,0] and R[1,1] are the same constant
(sqrt 20000)⁻¹ at every line — no longer depending on the per-line gps
variances, though not equal to 0.01 — while without the override they
do depend on the per-line gps covariance fields, witnessed by two lines
that differ only there. -/
theorem C5_override (r : Record) :
    ((fuse_readings cfgO (override_gps_cov (0.01, 0.01) r)).2 0 0 =
        (Real.sqrt 20000)⁻¹ ∧
      (fuse_readings cfgO (override_gps_cov (0.01, 0.01) r)).2 1 1 =
        (Real.sqrt 20000)⁻¹) ∧
    (fuse_readings default_config rB).2 0 0 ≠
      (fuse_readings default_config r0).2 0 0 := by
  refine ⟨⟨?_, ?_⟩, ?_⟩
  · rw [fuse_readings_R00, measurement_cov_diag,
      show cfgO.measurement_cov_val = (0.01 : ℝ) from rfl,
      show (override_gps_cov (0.01, 0.01) r).Co_gps_x = (0.01 : ℝ) from rfl,
      fuse_dev_01_01]
  · rw [fuse_readings_R11, measurement_cov_diag,
      show cfgO.measurement_cov_val = (0.01 : ℝ) from rfl,
      show (override_gps_cov (0.01, 0.01) r).Co_gps_y = (0.01 : ℝ) from rfl,
      fuse_dev_01_01]
  · rw [fuse_readings_R00, fuse_readings_R00, measurement_cov_diag,
      show default_config.measurement_cov_val = (0.01 : ℝ) from rfl,
      show rB.Co_gps_x = (0.01 : ℝ) from rfl,
      show r0.Co_gps_x = (0 : ℝ) from rfl,
      fuse_dev_01_01, fuse_dev_01_0]
    exact sqrt_inv_20000_ne_8398608

/- ------------------------------------------------------------------ -/
/- C6                                                                 -/
/- ------------------------------------------------------------------ -/

/-- C6: if the innovation covariance at a line is singular, the update
step fails with an error, the run aborts at that line, no state row for
it is appended, and the error value carries the history of all earlier
posteriors unchanged, still readable. -/
theorem C6_singular_aborts (cfg : Config) (r : Record)
    (rest : List Record) (s : KState) (h : (cov_Y cfg r s).det = 0) :
    state_update cfg r s =
      Except.error ⟨(model_predict cfg r s).2, s.state⟩ ∧
    run cfg (r :: rest) s =
      Except.error ⟨(model_predict cfg r s).2, s.state⟩ := by
  have h1 : state_update cfg r s =
      Except.error ⟨(model_predict cfg r s).2, s.state⟩ := by
    unfold state_update
    rw [if_pos h]
  refine ⟨h1, ?_⟩
  show (match state_update cfg r s with
        | Except.error e => Except.error e
        | Except.ok s1 => run cfg rest s1) = _
  rw [h1]

/-- C6 witness: the degenerate all-zero configuration makes cov_Y the
zero matrix, hence singular, and the one-line run aborts with the
initial history intact. -/
theorem C6_witness :
    (cov_Y cfgZ r0 (init_state cfgZ)).det = 0 ∧
    run cfgZ [r0] (init_state cfgZ) =
      Except.error ⟨(model_predict cfgZ r0 (init_state cfgZ)).2,
        (init_state cfgZ).state⟩ :=
  ⟨det_cfgZ,
    (C6_singular_aborts cfgZ r0 [] (init_state cfgZ) det_cfgZ).2⟩

/- ------------------------------------------------------------------ -/
/- C10                                                                -/
/- ------------------------------------------------------------------ -/

/-- C10: when state_update aborts, the error value shows the history
exactly as before the step — nothing appended — but the covariance has
already been overwritten with the predicted covariance F P Ft + Q
computed by model_predict before the inversion was attempted, and the
abort happens precisely on a singular cov_Y: the failed step is not
atomic with respect to the covariance. -/
theorem C10_not_atomic (cfg : Config) (r : Record) (s : KState)
    (e : KState) (h : state_update cfg r s = Except.error e) :
    e.state = s.state ∧
    e.previous_cov =
      transition_matrix r * (s.previous_cov * (transition_matrix r)ᵀ) +
        process_noise cfg ∧
    (cov_Y cfg r s).det = 0 := by
  by_cases hd : (cov_Y cfg r s).det = 0
  · unfold state_update at h
    rw [if_pos hd] at h
    injection h with h1
    subst h1
    exact ⟨rfl, rfl, hd⟩
  · exfalso
    unfold state_update at h
    rw [if_neg hd] at h
    exact Except.noConfusion h

/-- C10 witness: at the all-zero configuration the step aborts and the
error value carries the untouched initial history next to the already
overwritten covariance. -/
theorem C10_witness :
    state_update cfgZ r0 (init_state cfgZ) = Except.error ⟨0, [0]⟩ ∧
    ((⟨0, [0]⟩ : KState).state = (init_state cfgZ).state ∧
      (⟨0, [0]⟩ : KState).previous_cov =
        transition_matrix r0 * ((init_state cfgZ).previous_cov *
          (transition_matrix r0)ᵀ) + process_noise cfgZ ∧
      (cov_Y cfgZ r0 (init_state cfgZ)).det = 0) :=
  ⟨stepZ, C10_not_atomic cfgZ r0 (init_state cfgZ) ⟨0, [0]⟩ stepZ⟩

/- ------------------------------------------------------------------ -/
/- C7                                                                 -/
/- ------------------------------------------------------------------ -/

/-- A raw line is complete when every one of its ten fields is present
and numeric. -/
def RawRecord.complete (r : RawRecord) : Prop :=
  r.time.isSome ∧ r.O_x.isSome ∧ r.O_y.isSome ∧ r.O_t.isSome ∧
  r.I_t.isSome ∧ r.Co_I_t.isSome ∧ r.G_x.isSome ∧ r.G_y.isSome ∧
  r.Co_gps_x.isSome ∧ r.Co_gps_y.isSome

lemma parseRecord_isSome (r : RawRecord) :
    (parseRecord r).isSome ↔ r.complete := by
  obtain ⟨t, a, b, c, d, e, f, g, h, i⟩ := r
  cases t <;> cases a <;> cases b <;> cases c <;> cases d <;> cases e <;>
    cases f <;> cases g <;> cases h <;> cases i <;>
    simp [parseRecord, RawRecord.complete]

lemma get_data_isSome (rows : List RawRecord) :
    (get_data rows).isSome ↔ ∀ r ∈ rows, r.complete := by
  induction rows with
  | nil => simp [get_data]
  | cons r rs ih =>
    simp only [get_data, List.forall_mem_cons]
    cases hp : parseRecord r with
    | none =>
      have hc : ¬ r.complete := by
        rw [← parseRecord_isSome, hp]
        simp
      simp [hc]
    | some rec =>
      have hc : r.complete := by
        rw [← parseRecord_isSome, hp]
        simp
      cases hg : get_data rs with
      | none =>
        rw [hg] at ih
        simp only [Option.isSome_none, Bool.false_eq_true, false_iff] at ih
        simp [hc, ih]
      | some recs =>
        rw [hg] at ih
        simp only [Option.isSome_some, true_iff] at ih
        simp [hc]
        exact ih

/-- Equation lemma for run on a nonempty list. -/
lemma run_cons (cfg : Config) (r : Record) (rest : List Record)
    (s : KState) :
    run cfg (r :: rest) s = match state_update cfg r s with
      | Except.error e => Except.error e
      | Except.ok s1 => run cfg rest s1 := rfl

/-- Equation lemma for run on the empty list. -/
lemma run_nil (cfg : Config) (s : KState) : run cfg [] s = Except.ok s :=
  rfl

/-- C7 amended: loading succeeds exactly when every field of every line
is present and numeric, so a missing or non-numeric field fails the
load before any filtering step runs (no filter state is produced at
all); the %time values are NOT examined, so out-of-order timestep
values are accepted (see the counterexample); filtering then processes
the lines strictly in file order, one state_update per line. -/
theorem C7_load_check (rows : List RawRecord) :
    ((get_data rows).isSome ↔ ∀ r ∈ rows, r.complete) ∧
    (get_data rows = none → ∀ cfg, load_and_run cfg rows = none) ∧
    (∀ cfg r rest s, run cfg (r :: rest) s =
      match state_update cfg r s with
      | Except.error e => Except.error e
      | Except.ok s1 => run cfg rest s1) := by
  refine ⟨get_data_isSome rows, ?_, ?_⟩
  · intro h cfg
    unfold load_and_run
    rw [h]
    rfl
  · intro cfg r rest s
    rfl

/-- A raw line whose %time field is missing or non-numeric. -/
def rawBad : RawRecord :=
  ⟨none, some 0, some 0, some 0, some 0, some 0, some 0, some 0, some 0,
    some 0⟩

/-- A complete raw line carrying %time value t and zeros elsewhere. -/
def rawAt (t : ℝ) : RawRecord :=
  ⟨some t, some 0, some 0, some 0, some 0, some 0, some 0, some 0, some 0,
    some 0⟩

/-- The parsed line carrying %time value t and zeros elsewhere. -/
def recAt (t : ℝ) : Record := ⟨t, 0, 0, 0, 0, 0, 0, 0, 0, 0⟩

/-- C7 counterexample: two lines whose %time values are out of order
load successfully — get_data performs no order or monotonicity check on
timestep values, so no load-time failure is raised for them. -/
theorem C7_counterexample :
    get_data [rawAt 5, rawAt 3] = some [recAt 5, recAt 3] ∧
    (recAt 3).time < (recAt 5).time := by
  refine ⟨rfl, ?_⟩
  show (3 : ℝ) < 5
  norm_num

/-- C7 witness: a line with a missing field makes the load fail and the
whole pipeline yields nothing, before any filtering step runs. -/
theorem C7_witness :
    get_data [rawBad] = none ∧
    load_and_run default_config [rawBad] = none := by
  have h : get_data [rawBad] = none := rfl
  exact ⟨h, (C7_load_check [rawBad]).2.1 h default_config⟩

/- ------------------------------------------------------------------ -/
/- C8                                                                 -/
/- ------------------------------------------------------------------ -/

lemma state_update_ok_append (cfg : Config) (r : Record) (s s1 : KState)
    (h : state_update cfg r s = Except.ok s1) :
    ∃ t, s1.state = s.state ++ [t] := by
  by_cases hd : (cov_Y cfg r s).det = 0
  · exfalso
    unfold state_update at h
    rw [if_pos hd] at h
    exact Except.noConfusion h
  · unfold state_update at h
    rw [if_neg hd] at h
    injection h with h1
    exact ⟨_, by rw [← h1]⟩

lemma run_ok_append (cfg : Config) :
    ∀ (data : List Record) (s s1 : KState),
      run cfg data s = Except.ok s1 →
      ∃ t, s1.state = s.state ++ t ∧ t.length = data.length := by
  intro data
  induction data with
  | nil =>
    intro s s1 h
    rw [run_nil] at h
    injection h with h1
    subst h1
    exact ⟨[], by simp⟩
  | cons r rest ih =>
    intro s s1 h
    rw [run_cons] at h
    cases hu : state_update cfg r s with
    | error e =>
      rw [hu] at h
      exact Except.noConfusion h
    | ok m =>
      rw [hu] at h
      have h2 : run cfg rest m = Except.ok s1 := h
      obtain ⟨t, ht, hl⟩ := ih m s1 h2
      obtain ⟨x, hx⟩ := state_update_ok_append cfg r s m hu
      refine ⟨x :: t, ?_, ?_⟩
      · rw [ht, hx]
        simp
      · simp [hl]

lemma run_append (cfg : Config) :
    ∀ (l1 l2 : List Record) (s : KState),
      run cfg (l1 ++ l2) s = match run cfg l1 s with
        | Except.error e => Except.error e
        | Except.ok m => run cfg l2 m := by
  intro l1
  induction l1 with
  | nil =>
    intro l2 s
    rw [List.nil_append, run_nil]
  | cons r rest ih =>
    intro l2 s
    rw [List.cons_append, run_cons, run_cons]
    cases hu : state_update cfg r s with
    | error e => rfl
    | ok m => exact ih l2 m

/-- C8: when the full run completes on N input lines, the history has
exactly N+1 entries — the initial all-zero row followed by one
posterior row per line in order — and the history reached after any
prefix of the input is a prefix of the final history: rows already
recorded are never changed by later steps, the history only grows by
appending. -/
theorem C8_history (cfg : Config) (data : List Record) (s1 : KState)
    (h : run cfg data (init_state cfg) = Except.ok s1) :
    s1.state.length = data.length + 1 ∧
    s1.state.head? = some 0 ∧
    (∀ n s2, run cfg (data.take n) (init_state cfg) = Except.ok s2 →
      ∃ t, s2.state ++ t = s1.state) := by
  obtain ⟨t, ht, hl⟩ := run_ok_append cfg data (init_state cfg) s1 h
  have hinit : (init_state cfg).state = [0] := rfl
  refine ⟨?_, ?_, ?_⟩
  · rw [ht, hinit]
    simp [hl]
  · rw [ht, hinit]
    simp
  · intro n s2 h2
    have hsplit := run_append cfg (data.take n) (data.drop n) (init_state cfg)
    rw [List.take_append_drop, h, h2] at hsplit
    have h3 : run cfg (data.drop n) s2 = Except.ok s1 := hsplit.symm
    obtain ⟨u, hu, _⟩ := run_ok_append cfg (data.drop n) s2 s1 h3
    exact ⟨u, hu.symm⟩

/-- C8 witness: the one-line degenerate run completes with a history of
two rows, the initial zero row first, and every prefix history is a
prefix of the final one. -/
theorem C8_witness :
    run cfg0 [r0] (init_state cfg0) = Except.ok ⟨0, [0, 0]⟩ ∧
    ((⟨0, [0, 0]⟩ : KState).state.length = [r0].length + 1 ∧
      (⟨0, [0, 0]⟩ : KState).state.head? = some 0 ∧
      (∀ n s2, run cfg0 ([r0].take n) (init_state cfg0) = Except.ok s2 →
        ∃ t, s2.state ++ t = (⟨0, [0, 0]⟩ : KState).state)) :=
  ⟨run0, C8_history cfg0 [r0] ⟨0, [0, 0]⟩ run0⟩

/- ------------------------------------------------------------------ -/
/- C9                                                                 -/
/- ------------------------------------------------------------------ -/

/-- C9: the initial covariance is symmetric, and symmetry is preserved
exactly — not merely within tolerance — by every prediction (the
covariance model_predict writes) and by every successful update (the
posterior covariance), hence the current covariance is symmetric after
every prediction and after every update at every timestep of a run. -/
theorem C9_symmetry (cfg : Config) :
    ((init_state cfg).previous_cov)ᵀ = (init_state cfg).previous_cov ∧
    ∀ r s, (s.previous_cov)ᵀ = s.previous_cov →
      (((model_predict cfg r s).2)ᵀ = (model_predict cfg r s).2 ∧
        ∀ s1, state_update cfg r s = Except.ok s1 →
          (s1.previous_cov)ᵀ = s1.previous_cov) := by
  constructor
  · simp [init_state, Matrix.transpose_smul, Matrix.transpose_one]
  · intro r s hs
    have hpred : ((model_predict cfg r s).2)ᵀ = (model_predict cfg r s).2 := by
      simp [model_predict, Matrix.transpose_add, Matrix.transpose_mul,
        Matrix.transpose_transpose, hs, process_noise, Matrix.transpose_smul,
        Matrix.transpose_one, Matrix.mul_assoc]
    have hS : (cov_Y cfg r s)ᵀ = cov_Y cfg r s := by
      rw [covY_eq_innovation]
      unfold innovation_cov measurement_cov
      rw [Matrix.transpose_add, Matrix.transpose_smul, Matrix.transpose_one,
        hpred]
    refine ⟨hpred, ?_⟩
    intro s1 h
    by_cases hd : (cov_Y cfg r s).det = 0
    · exfalso
      unfold state_update at h
      rw [if_pos hd] at h
      exact Except.noConfusion h
    · unfold state_update at h
      rw [if_neg hd] at h
      injection h with h1
      subst h1
      show ((model_predict cfg r s).2 - _)ᵀ = _
      simp [Matrix.transpose_sub, Matrix.transpose_mul,
        Matrix.transpose_transpose, hpred, hS, Matrix.mul_assoc]

/-- C9 witness: at the degenerate configuration the initial covariance,
the predicted covariance and the posterior covariance of the provably
successful step are all symmetric. -/
theorem C9_witness :
    ((init_state cfg0).previous_cov)ᵀ = (init_state cfg0).previous_cov ∧
    ((model_predict cfg0 r0 (init_state cfg0)).2)ᵀ =
      (model_predict cfg0 r0 (init_state cfg0)).2 ∧
    ((⟨0, [0, 0]⟩ : KState).previous_cov)ᵀ =
      (⟨0, [0, 0]⟩ : KState).previous_cov :=
  ⟨(C9_symmetry cfg0).1,
    ((C9_symmetry cfg0).2 r0 (init_state cfg0) (C9_symmetry cfg0).1).1,
    ((C9_symmetry cfg0).2 r0 (init_state cfg0) (C9_symmetry cfg0).1).2
      ⟨0, [0, 0]⟩ step0⟩

end KalmanFilter
